import Mathlib

/-!
Verification of the lobby/session orchestration engine of
`weird-inventions-ws` (`src/app.py`).  The source file contains two
concatenated copies of the module; the later definitions (the second half of
the file) are the ones Python keeps after loading the module, so they are
embedded here.  Python dictionaries are modelled as association lists with
first-occurrence lookup, in-place overwriting `dictSet` and key-removing
`dictPop`; Python truthiness is made explicit; handlers that can raise return
`Except`; the two unbounded `while True` loops (lobby-code sampling and the
derangement shuffle) take an explicit candidate oracle and fuel.
-/

namespace App

/-- Python values that appear as dictionary keys and event payload atoms. -/
inductive PyVal where
  | pyNone
  | pyStr (s : String)
  | pyInt (n : Int)
  | pyBool (b : Bool)
deriving DecidableEq, Repr

/-- Python truthiness for the values above (`if x:`). -/
def pyTruthy : PyVal → Bool
  | .pyNone => false
  | .pyStr s => !s.isEmpty
  | .pyInt n => n != 0
  | .pyBool b => b

section Dict

variable {α β : Type} [DecidableEq α]

/-- `d.get(k)`: first occurrence lookup in an association list. -/
def dictGet (k : α) : List (α × β) → Option β
  | [] => none
  | kv :: rest => if kv.1 = k then some kv.2 else dictGet k rest

/-- `d[k] = v`: replace the value at the first occurrence of `k` in place,
append if absent (Python dicts keep insertion order). -/
def dictSet (k : α) (v : β) : List (α × β) → List (α × β)
  | [] => [(k, v)]
  | kv :: rest => if kv.1 = k then (k, v) :: rest else kv :: dictSet k v rest

/-- `d.pop(k, None)` / `del d[k]`: remove the key.  Python dicts never hold a
key twice, so removing every occurrence agrees with removing the first. -/
def dictPop (k : α) (l : List (α × β)) : List (α × β) :=
  l.filter (fun kv => kv.1 ≠ k)

end Dict

/-- The game phase enum (`GameState` in the source). -/
inductive GameState where
  | WAITING
  | WRITING
  | VIEWING
  | DRAWING
  | PRESENTING
  | END
deriving DecidableEq, Repr

/-- A player (`Player.__init__`).  The drawing blob is kept opaque. -/
structure Player where
  id : String
  username : PyVal
  prompt_written : Option String := none
  prompt_given : Option String := none
  drawing_data : Option String := none
  voted_already : Bool := false
  voting_score : Int := 0
deriving DecidableEq, Repr

/-- The dictionary produced by `Player.get_as_dict`. -/
structure PlayerDict where
  id : String
  username : PyVal
  prompt_written : Option String
  prompt_given : Option String
deriving DecidableEq, Repr

def Player.get_as_dict (p : Player) : PlayerDict :=
  { id := p.id, username := p.username,
    prompt_written := p.prompt_written, prompt_given := p.prompt_given }

/-- A lobby (`Lobby.__init__`). -/
structure Lobby where
  host_id : String
  lobby_code : Int
  players : List Player
  current_state : GameState
deriving DecidableEq, Repr

/-- An outbound event payload. -/
inductive Payload where
  | v (x : PyVal)
  | players (ds : List PlayerDict)
  | dict (kvs : List (String × PyVal))
deriving DecidableEq, Repr

/-- One `sio.emit(event, payload, target_sid)` that is actually awaited. -/
structure Emit where
  event : String
  payload : Payload
  target : String
deriving DecidableEq, Repr

/-- The module-level mutable registries: `lobbies`, `player_to_lobby`,
`sid_to_id`, `id_to_sid`.  `lobbies` is keyed by whatever Python value was
used at insertion (`create_lobby` inserts the `int` code). -/
structure ServerState where
  lobbies : List (PyVal × Lobby)
  player_to_lobby : List (String × PyVal)
  sid_to_id : List (String × String)
  id_to_sid : List (String × String)
deriving DecidableEq, Repr

/-- `get_id_from_sid`: `sid_to_id.get(sid, sid)`. -/
def get_id_from_sid (s : ServerState) (sid : String) : String :=
  (dictGet sid s.sid_to_id).getD sid

/-- `get_sid_from_id`: `id_to_sid.get(player_id, player_id)`. -/
def get_sid_from_id (s : ServerState) (player_id : String) : String :=
  (dictGet player_id s.id_to_sid).getD player_id

/-- `get_lobby_and_player`: resolve the reverse index, then the registry.
Returns `(None, None)` when the identity has no (truthy) lobby code. -/
def get_lobby_and_player (s : ServerState) (player_id : String) :
    Option Lobby × Option PyVal :=
  match dictGet player_id s.player_to_lobby with
  | none => (none, none)
  | some code =>
    if pyTruthy code then (dictGet code s.lobbies, some code)
    else (none, none)

/-- `data[k]` on a Python dict: `KeyError` when the key is absent. -/
def pyIndex (data : List (String × PyVal)) (k : String) : Except String PyVal :=
  match dictGet k data with
  | some v => .ok v
  | none => .error ("KeyError: " ++ k)

def optStrToPy : Option String → PyVal
  | none => .pyNone
  | some t => .pyStr t

/-- `Lobby._generate_lobby_code`: draw candidates from the oracle; accept the
first one whose *string form* is not a key of `lobbies`.  The registry's keys
are the `int` codes, so the membership test compares a `str` to `int` keys. -/
def generate_lobby_code (lb : List (PyVal × Lobby)) (cands : Nat → Int) :
    Nat → Nat → Option Int
  | _, 0 => none
  | k, Nat.succ fuel =>
    let code := cands k
    if (dictGet (PyVal.pyStr (toString code)) lb).isSome then
      generate_lobby_code lb cands (k + 1) fuel
    else some code

/-- `create_lobby` event handler. -/
def create_lobby (s : ServerState) (sid : String) (cands : Nat → Int)
    (fuel : Nat) : Option (ServerState × List Emit) :=
  let host_id := get_id_from_sid s sid
  match generate_lobby_code s.lobbies cands 0 fuel with
  | none => none
  | some code =>
    let lobby : Lobby :=
      { host_id := host_id, lobby_code := code, players := [],
        current_state := .WAITING }
    some ({ s with
              lobbies := dictSet (PyVal.pyInt code) lobby s.lobbies,
              player_to_lobby :=
                dictSet host_id (PyVal.pyInt code) s.player_to_lobby },
          [⟨"lobby_created", .v (.pyInt code), sid⟩])

/-- `join_lobby` event handler. -/
def join_lobby (s : ServerState) (sid : String)
    (data : List (String × PyVal)) : ServerState × List Emit :=
  match dictGet "username" data, dictGet "lobby_code" data with
  | some uname, some codeV =>
    if !pyTruthy uname || !pyTruthy codeV then
      (s, [⟨"error", .v (.pyStr "Username and lobby_code are required!"), sid⟩])
    else
      match dictGet codeV s.lobbies with
      | none => (s, [⟨"error", .v (.pyStr "Lobby not found!"), sid⟩])
      | some lobby =>
        if lobby.current_state ≠ GameState.WAITING then
          (s, [⟨"error", .v (.pyStr "Game is already started!"), sid⟩])
        else if 12 ≤ lobby.players.length then
          (s, [⟨"error", .v (.pyStr "Lobby is full!"), sid⟩])
        else
          let player : Player := { id := get_id_from_sid s sid, username := uname }
          let lobby' := { lobby with players := lobby.players ++ [player] }
          let s' := { s with
                        player_to_lobby :=
                          dictSet player.id (PyVal.pyInt lobby.lobby_code)
                            s.player_to_lobby,
                        lobbies := dictSet codeV lobby' s.lobbies }
          let playersPayload :=
            Payload.players (lobby'.players.map Player.get_as_dict)
          let hostUpdate :=
            match dictGet lobby.host_id s.id_to_sid with
            | some hs =>
              if hs ≠ "" then [⟨"players_update", playersPayload, hs⟩] else []
            | none => []
          (s', ⟨"joined_lobby", .v (.pyInt lobby.lobby_code), sid⟩ :: hostUpdate)
  | _, _ =>
    (s, [⟨"error", .v (.pyStr "Username and lobby_code are required!"), sid⟩])

def hostMsg : String := "The host has disconnected from the game!"

/-- The host branch of `disconnect`: for every other roster member pop their
`id_to_sid`, `player_to_lobby` and `sid_to_id` entries and, when a connection
was bound, send them the disconnect notice. -/
def host_teardown (pid : String) : List Player → ServerState →
    ServerState × List Emit
  | [], s => (s, [])
  | p :: rest, s =>
    if p.id = pid then host_teardown pid rest s
    else
      let sid? := dictGet p.id s.id_to_sid
      let s' := { s with
                    id_to_sid := dictPop p.id s.id_to_sid,
                    player_to_lobby := dictPop p.id s.player_to_lobby,
                    sid_to_id :=
                      match sid? with
                      | some sd => dictPop sd s.sid_to_id
                      | none => s.sid_to_id }
      let es : List Emit :=
        match sid? with
        | some sd =>
          if sd ≠ "" then [⟨"disconnected", .v (.pyStr hostMsg), sd⟩] else []
        | none => []
      let r := host_teardown pid rest s'
      (r.1, es ++ r.2)

/-- `remove_player`: drop the first roster entry with the given id. -/
def remove_player (pid : String) : List Player → List Player
  | [] => []
  | p :: rest => if p.id = pid then rest else p :: remove_player pid rest

/-- `disconnect` event handler. -/
def disconnect (s0 : ServerState) (sid : String) : ServerState × List Emit :=
  match dictGet sid s0.sid_to_id with
  | none => (s0, [])
  | some pid =>
    let s1 := { s0 with sid_to_id := dictPop sid s0.sid_to_id }
    if pid = "" then (s1, [])
    else
      let lp := get_lobby_and_player s1 pid
      let s2 := { s1 with
                    id_to_sid := dictPop pid s1.id_to_sid,
                    player_to_lobby := dictPop pid s1.player_to_lobby }
      match lp with
      | (none, _) => (s2, [])
      | (some lobby, code?) =>
        if lobby.host_id = pid then
          let r := host_teardown pid lobby.players s2
          ({ r.1 with
               lobbies :=
                 match code? with
                 | some c => dictPop c r.1.lobbies
                 | none => r.1.lobbies }, r.2)
        else
          let lobby' := { lobby with players := remove_player pid lobby.players }
          let s3 := { s2 with
                        lobbies :=
                          match code? with
                          | some c => dictSet c lobby' s2.lobbies
                          | none => s2.lobbies }
          let playersPayload :=
            Payload.players (lobby'.players.map Player.get_as_dict)
          let host_sid? := dictGet lobby.host_id s3.id_to_sid
          let es1 : List Emit :=
            match host_sid? with
            | some hs =>
              if hs ≠ "" then [⟨"players_update", playersPayload, hs⟩] else []
            | none => []
          let es2 : List Emit :=
            lobby'.players.filterMap (fun p =>
              match dictGet p.id s3.id_to_sid with
              | some sd =>
                if (sd != "") && (match host_sid? with
                                  | some hs => sd != hs
                                  | none => true) then
                  some ⟨"players_update", playersPayload, sd⟩
                else none
              | none => none)
          (s3, es1 ++ es2)

/-- One prompt card of the redistribution pool (the `uuid` tag of the source
is never read and is omitted). -/
structure PromptCard where
  text : Option String
  owner : String
deriving DecidableEq, Repr

/-- `all(players[i].id != prompt_pool[i]["owner"] ...)`: the acceptance test
of the shuffle loop. -/
def derangementOk (players : List Player) (pool : List PromptCard) : Bool :=
  (players.zip pool).all (fun pc => pc.1.id != pc.2.owner)

/-- The `while True: random.shuffle(...)` loop of `hand_out_prompts`, with the
shuffle outcomes supplied by an oracle and bounded by fuel; `none` means the
loop has not terminated within the fuel. -/
def shuffleSearch (players : List Player) (shuffles : Nat → List PromptCard) :
    Nat → Nat → Option (List PromptCard)
  | _, 0 => none
  | k, Nat.succ fuel =>
    let pool := shuffles k
    if derangementOk players pool then some pool
    else shuffleSearch players shuffles (k + 1) fuel

/-- `hand_out_prompts` event handler.  Note: the source never assigns
`lobby.current_state` here. -/
def hand_out_prompts (s : ServerState) (sid : String)
    (shuffles : Nat → List PromptCard) (fuel : Nat) :
    Option (ServerState × List Emit) :=
  let pid := get_id_from_sid s sid
  match get_lobby_and_player s pid with
  | (none, _) => some (s, [])
  | (some lobby, code?) =>
    match shuffleSearch lobby.players shuffles 0 fuel with
    | none => none
    | some pool =>
      let pairs := lobby.players.zip pool
      let players' := pairs.map (fun pc => { pc.1 with prompt_given := pc.2.text })
      let es :=
        pairs.map (fun pc =>
          (⟨"give_prompt", .v (optStrToPy pc.2.text),
            get_sid_from_id s pc.1.id⟩ : Emit))
      let lobby' := { lobby with players := players' }
      some ({ s with
                lobbies :=
                  match code? with
                  | some c => dictSet c lobby' s.lobbies
                  | none => s.lobbies },
            es ++ [⟨"start_viewing", .v (.pyStr ""), sid⟩])

/-- `start_drawing` event handler.  Note: the source never assigns
`lobby.current_state` here either; it only emits the phase strings. -/
def start_drawing (s : ServerState) (sid : String) : ServerState × List Emit :=
  let pid := get_id_from_sid s sid
  match get_lobby_and_player s pid with
  | (none, _) => (s, [])
  | (some lobby, _) =>
    (s, ⟨"drawing_started", .v (.pyStr "drawing"), sid⟩ ::
        lobby.players.map (fun p =>
          (⟨"game_state", .v (.pyStr "drawing"), get_sid_from_id s p.id⟩ : Emit)))

/-- `set_presenter`'s roster loop: clear every vote flag and address each
player; `data['id']` can raise `KeyError`. -/
def set_presenter_loop (s : ServerState) (data : List (String × PyVal)) :
    List Player → Except String (List Player × List Emit)
  | [] => .ok ([], [])
  | p :: rest =>
    let p' := { p with voted_already := false }
    match pyIndex data "id" with
    | .error e => .error e
    | .ok tid =>
      let e : Emit :=
        if tid = .pyStr p.id then
          ⟨"you_are_presenting", .dict data, get_sid_from_id s p.id⟩
        else
          ⟨"current_presenter", .dict data, get_sid_from_id s p.id⟩
      match set_presenter_loop s data rest with
      | .error err => .error err
      | .ok r => .ok (p' :: r.1, e :: r.2)

/-- `set_presenter` event handler. -/
def set_presenter (s : ServerState) (sid : String)
    (data : List (String × PyVal)) : Except String (ServerState × List Emit) :=
  let pid := get_id_from_sid s sid
  match get_lobby_and_player s pid with
  | (none, _) => .ok (s, [])
  | (some lobby, code?) =>
    match set_presenter_loop s data lobby.players with
    | .error e => .error e
    | .ok r =>
      let lobby' := { lobby with players := r.1 }
      .ok ({ s with
               lobbies :=
                 match code? with
                 | some c => dictSet c lobby' s.lobbies
                 | none => s.lobbies }, r.2)

/-- `target.voting_score += data['score']` needs an integer-like value. -/
def pyToIntArith : PyVal → Except String Int
  | .pyInt k => .ok k
  | .pyBool b => .ok (if b then 1 else 0)
  | _ => .error "TypeError: unsupported operand"

/-- The voter scan of `vote_presentation`: flag the first roster entry whose
id is the voter's and whose vote is unspent; report whether the `break` with
the flag mutation happened. -/
def flag_first_voter (pid : String) : List Player → List Player × Bool
  | [] => ([], false)
  | p :: rest =>
    if p.id = pid ∧ p.voted_already = false then
      ({ p with voted_already := true } :: rest, true)
    else
      let r := flag_first_voter pid rest
      (p :: r.1, r.2)

/-- The inner `for target in lobby.players` of `vote_presentation`: add the
submitted score to the first roster entry matching the voted id; `data` is
only indexed for `'score'` when such a target exists. -/
def bump_first (tid : PyVal) (data : List (String × PyVal)) :
    List Player → Except String (List Player)
  | [] => .ok []
  | t :: rest =>
    if PyVal.pyStr t.id = tid then
      match pyIndex data "score" with
      | .error e => .error e
      | .ok sc =>
        match pyToIntArith sc with
        | .error e => .error e
        | .ok k => .ok ({ t with voting_score := t.voting_score + k } :: rest)
    else
      match bump_first tid data rest with
      | .error e => .error e
      | .ok r => .ok (t :: r)

/-- `vote_presentation` event handler.  The outer loop's condition
`p.id == player_id and data['id'] != p.id and not p.voted_already`
short-circuits: `data['id']` is only evaluated when some roster entry has the
voter's id, and the check against the voter's own id is the same for each
such entry. -/
def vote_presentation (s : ServerState) (sid : String)
    (data : List (String × PyVal)) : Except String (ServerState × List Emit) :=
  let pid := get_id_from_sid s sid
  match get_lobby_and_player s pid with
  | (none, _) => .ok (s, [])
  | (some lobby, code?) =>
    let ack : Emit := ⟨"voted", .v .pyNone, sid⟩
    if lobby.players.any (fun p => p.id == pid) then
      match pyIndex data "id" with
      | .error e => .error e
      | .ok tid =>
        if tid = .pyStr pid then
          -- `data['id'] != p.id` is false for every candidate: no break, no vote
          .ok (s, [ack])
        else
          let fl := flag_first_voter pid lobby.players
          if fl.2 then
            match bump_first tid data fl.1 with
            | .error e => .error e
            | .ok ps =>
              let lobby' := { lobby with players := ps }
              .ok ({ s with
                       lobbies :=
                         match code? with
                         | some c => dictSet c lobby' s.lobbies
                         | none => s.lobbies }, [ack])
          else
            -- every candidate had already voted: loop finishes without a break
            .ok (s, [ack])
    else
      .ok (s, [ack])

/-- `done_presenting` event handler.  The source builds `player_stats` and
then calls `sio.emit("game_end", player_stats, sid)` *without awaiting it*:
the coroutine is discarded and no event is ever delivered; the lobby's
`current_state` is not assigned either. -/
def done_presenting (s : ServerState) (sid : String) : ServerState × List Emit :=
  let pid := get_id_from_sid s sid
  match get_lobby_and_player s pid with
  | (none, _) => (s, [])
  | (some lobby, _) =>
    let _player_stats := lobby.players.map (fun p => (p.username, p.voting_score))
    (s, [])

/-- `send_reaction` event handler.  The source unpacks
`lobby, player = get_lobby_and_player(player_id)` — the second component is
the *lobby code*, not a `Player` — and then evaluates `player.username`,
which raises `AttributeError` on the integer code. -/
def send_reaction (s : ServerState) (sid : String) (_reaction : PyVal) :
    Except String (ServerState × List Emit) :=
  let pid := get_id_from_sid s sid
  match get_lobby_and_player s pid with
  | (none, _) => .ok (s, [])
  | (some _lobby, _code) =>
    .error "AttributeError: 'int' object has no attribute 'username'"

/-- The pairs (registry key, stored phase) of every live lobby. -/
def lobbyPhases (s : ServerState) : List (PyVal × GameState) :=
  s.lobbies.map (fun kv => (kv.1, kv.2.current_state))

/-- The operations the reverse-index invariant claim quantifies over. -/
inductive Op where
  | createL (sid : String) (cands : Nat → Int) (fuel : Nat)
  | joinL (sid : String) (data : List (String × PyVal))
  | disc (sid : String)

def applyOp (s : ServerState) : Op → Option (ServerState × List Emit)
  | .createL sid cands fuel => create_lobby s sid cands fuel
  | .joinL sid data => some (join_lobby s sid data)
  | .disc sid => some (disconnect s sid)

/-- For `create_lobby`: every candidate the code generator may return is
fresh among the live integer registry keys (the intended, overwhelmingly
likely sampling outcome). -/
def FreshOk (s : ServerState) : Op → Prop
  | .createL _ cands _ => ∀ j, dictGet (PyVal.pyInt (cands j)) s.lobbies = none
  | _ => True

/-- Registry keys agree with the stored lobby's own code field (true of every
state the engine builds: `create_lobby` inserts at `lobby.lobby_code`). -/
def Coherent (s : ServerState) : Prop :=
  ∀ kv ∈ s.lobbies, kv.1 = PyVal.pyInt kv.2.lobby_code

/-- The weak reverse-index invariant the code actually maintains: every
indexed identity points at a live lobby that holds it in its roster or
records it as host. -/
def RevIndexOk (s : ServerState) : Prop :=
  ∀ kv ∈ s.player_to_lobby,
    ∃ L, dictGet kv.2 s.lobbies = some L ∧
      ((∃ q ∈ L.players, q.id = kv.1) ∨ L.host_id = kv.1)

/-- Clearing a vote flag (used to state the `set_presenter` reset). -/
def resetFlag (p : Player) : Player := { p with voted_already := false }

/-- The claim's validation outcome for `join_lobby`, in the order the handler
checks it: missing/falsy fields, unknown code, wrong phase, full roster
(capacity 12); `none` means the join is accepted. -/
def join_lobby_spec_error (s : ServerState)
    (data : List (String × PyVal)) : Option String :=
  match dictGet "username" data, dictGet "lobby_code" data with
  | some uname, some codeV =>
    if !pyTruthy uname || !pyTruthy codeV then
      some "Username and lobby_code are required!"
    else
      match dictGet codeV s.lobbies with
      | none => some "Lobby not found!"
      | some lobby =>
        if lobby.current_state ≠ GameState.WAITING then
          some "Game is already started!"
        else if 12 ≤ lobby.players.length then some "Lobby is full!"
        else none
  | _, _ => some "Username and lobby_code are required!"

-- ----- concrete fixtures used by counterexamples and witnesses -----

def lobby2 : Lobby :=
  { host_id := "h2", lobby_code := 3333,
    players := [{ id := "h2", username := .pyStr "Hero" },
                { id := "a2", username := .pyStr "Ada" },
                { id := "b2", username := .pyStr "Ben" }],
    current_state := .WRITING }

def S2x : ServerState :=
  { lobbies := [(.pyInt 3333, lobby2)],
    player_to_lobby := [("h2", .pyInt 3333), ("a2", .pyInt 3333),
                        ("b2", .pyInt 3333)],
    sid_to_id := [("sh2", "h2"), ("sa2", "a2"), ("sb2", "b2")],
    id_to_sid := [("h2", "sh2"), ("a2", "sa2"), ("b2", "sb2")] }

def lobby3 : Lobby :=
  { host_id := "h3", lobby_code := 4444,
    players := [{ id := "h3", username := .pyStr "Hostess" },
                { id := "m3", username := .pyStr "Mel" }],
    current_state := .WAITING }

def S3 : ServerState :=
  { lobbies := [(.pyInt 4444, lobby3)],
    player_to_lobby := [("h3", .pyInt 4444), ("m3", .pyInt 4444)],
    sid_to_id := [("s3h", "h3"), ("s3m", "m3"), ("s3j", "j3")],
    id_to_sid := [("h3", "s3h"), ("m3", "s3m"), ("j3", "s3j")] }

/-- A well-formed join payload for lobby 4444. -/
def data3 : List (String × PyVal) :=
  [("username", .pyStr "Zoe"), ("lobby_code", .pyInt 4444)]

def lobby4 : Lobby :=
  { host_id := "h4", lobby_code := 8888,
    players := [{ id := "h4", username := .pyStr "Hava" },
                { id := "v4", username := .pyStr "Vic" },
                { id := "t4", username := .pyStr "Tess" }],
    current_state := .PRESENTING }

def S4 : ServerState :=
  { lobbies := [(.pyInt 8888, lobby4)],
    player_to_lobby := [("h4", .pyInt 8888), ("v4", .pyInt 8888),
                        ("t4", .pyInt 8888)],
    sid_to_id := [("s4h", "h4"), ("s4v", "v4"), ("s4t", "t4")],
    id_to_sid := [("h4", "s4h"), ("v4", "s4v"), ("t4", "s4t")] }

/-- A well-formed vote payload targeting roster member `t4` with score 7. -/
def data4 : List (String × PyVal) := [("id", .pyStr "t4"), ("score", .pyInt 7)]

/-- A vote payload whose target id matches no roster member. -/
def data10 : List (String × PyVal) := [("id", .pyStr "zz")]

def lobby5 : Lobby :=
  { host_id := "h5", lobby_code := 7777,
    players := [{ id := "h5", username := .pyStr "Host", voting_score := 3 },
                { id := "ann", username := .pyStr "Ann", voting_score := 5 }],
    current_state := .PRESENTING }

def S5 : ServerState :=
  { lobbies := [(.pyInt 7777, lobby5)],
    player_to_lobby := [("h5", .pyInt 7777), ("ann", .pyInt 7777)],
    sid_to_id := [("sh5", "h5"), ("sa5", "ann")],
    id_to_sid := [("h5", "sh5"), ("ann", "sa5")] }

def lobby6 : Lobby :=
  { host_id := "h6", lobby_code := 1234,
    players := [{ id := "h6", username := .pyStr "Hank", prompt_written := some "cat" },
                { id := "p6", username := .pyStr "Pia", prompt_written := some "dog" }],
    current_state := .WRITING }

def S6 : ServerState :=
  { lobbies := [(.pyInt 1234, lobby6)],
    player_to_lobby := [("h6", .pyInt 1234), ("p6", .pyInt 1234)],
    sid_to_id := [("s6h", "h6"), ("s6p", "p6")],
    id_to_sid := [("h6", "s6h"), ("p6", "s6p")] }

/-- A shuffle oracle whose first draw is already a derangement of `lobby6`'s
prompt pool. -/
def sh6 : Nat → List PromptCard :=
  fun _ => [⟨some "dog", "p6"⟩, ⟨some "cat", "h6"⟩]

/-- The (successful) result of `hand_out_prompts` on the `S6` fixture. -/
def R6 : ServerState × List Emit :=
  (hand_out_prompts S6 "s6h" sh6 1).getD (S6, [])

def lobby7 : Lobby :=
  { host_id := "alice", lobby_code := 1000, players := [],
    current_state := .WAITING }

def S7 : ServerState :=
  { lobbies := [(.pyInt 1000, lobby7)],
    player_to_lobby := [("alice", .pyInt 1000)],
    sid_to_id := [("sb", "bob")],
    id_to_sid := [("bob", "sb")] }

def S8 : ServerState :=
  { lobbies := [], player_to_lobby := [],
    sid_to_id := [("sh8", "h8")], id_to_sid := [("h8", "sh8")] }

/-- The result of `create_lobby` on the `S8` fixture with code sample 4321. -/
def R8 : ServerState × List Emit :=
  (create_lobby S8 "sh8" (fun _ => 4321) 1).getD (S8, [])

def lobby1 : Lobby :=
  { host_id := "h1", lobby_code := 5555,
    players := [{ id := "h1", username := .pyStr "Solo",
                  prompt_written := some "axolotl" }],
    current_state := .WRITING }

def S1 : ServerState :=
  { lobbies := [(.pyInt 5555, lobby1)],
    player_to_lobby := [("h1", .pyInt 5555)],
    sid_to_id := [("s1h", "h1")],
    id_to_sid := [("h1", "s1h")] }

/-- The only possible shuffle outcome of a one-card pool. -/
def sh1 : Nat → List PromptCard := fun _ => [⟨some "axolotl", "h1"⟩]

def lobby9 : Lobby :=
  { host_id := "h9", lobby_code := 2222,
    players := [{ id := "h9", username := .pyStr "Host9" },
                { id := "mem", username := .pyStr "Member" }],
    current_state := .PRESENTING }

def S9 : ServerState :=
  { lobbies := [(.pyInt 2222, lobby9)],
    player_to_lobby := [("h9", .pyInt 2222), ("mem", .pyInt 2222)],
    sid_to_id := [("s9h", "h9"), ("sm", "mem")],
    id_to_sid := [("h9", "s9h"), ("mem", "sm")] }

-- ----- theorems -----

section DictLemmas

variable {α β : Type} [DecidableEq α]

theorem dictGet_set_self (k : α) (v : β) (l : List (α × β)) :
    dictGet k (dictSet k v l) = some v := by
  induction l with
  | nil => simp [dictGet, dictSet]
  | cons kv rest ih =>
    by_cases h : kv.1 = k
    · simp [dictSet, h, dictGet]
    · simp [dictSet, h, dictGet, ih]

theorem dictGet_set_ne (k k' : α) (v : β) (l : List (α × β)) (h : k' ≠ k) :
    dictGet k' (dictSet k v l) = dictGet k' l := by
  induction l with
  | nil => simp [dictGet, dictSet, Ne.symm h]
  | cons kv rest ih =>
    by_cases hk : kv.1 = k
    · subst hk
      simp [dictSet, dictGet, Ne.symm h]
    · by_cases hk' : kv.1 = k'
      · simp [dictSet, hk, dictGet, hk', h]
      · simp [dictSet, hk, dictGet, hk', ih]

theorem dictGet_pop_self (k : α) (l : List (α × β)) :
    dictGet k (dictPop k l) = none := by
  induction l with
  | nil => simp [dictGet, dictPop]
  | cons kv rest ih =>
    by_cases h : kv.1 = k
    · simpa [dictPop, h] using ih
    · simpa [dictPop, List.filter_cons, h, dictGet] using ih

theorem dictGet_pop_ne (k k' : α) (l : List (α × β)) (h : k' ≠ k) :
    dictGet k' (dictPop k l) = dictGet k' l := by
  induction l with
  | nil => simp [dictGet, dictPop]
  | cons kv rest ih =>
    by_cases hk : kv.1 = k
    · subst hk
      simpa [dictPop, List.filter_cons, dictGet, Ne.symm h] using ih
    · by_cases hk' : kv.1 = k'
      · simp [dictPop, List.filter_cons, hk, dictGet, hk', h]
      · simpa [dictPop, List.filter_cons, hk, dictGet, hk'] using ih

theorem dictGet_mem {k : α} {v : β} {l : List (α × β)}
    (h : dictGet k l = some v) : (k, v) ∈ l := by
  induction l with
  | nil => simp [dictGet] at h
  | cons kv rest ih =>
    by_cases hk : kv.1 = k
    · simp [dictGet, hk] at h
      have hkv : kv = (k, v) := by
        cases kv
        simp_all
      rw [hkv]
      exact List.mem_cons_self _ _
    · simp [dictGet, hk] at h
      exact List.mem_cons_of_mem _ (ih h)

theorem mem_dictSet {kv : α × β} {k : α} {v : β} {l : List (α × β)}
    (h : kv ∈ dictSet k v l) : kv = (k, v) ∨ kv ∈ l := by
  induction l with
  | nil => simpa [dictSet] using h
  | cons kv' rest ih =>
    by_cases hk : kv'.1 = k
    · simp [dictSet, hk] at h
      rcases h with h | h
      · exact Or.inl h
      · exact Or.inr (List.mem_cons_of_mem _ h)
    · simp [dictSet, hk] at h
      rcases h with h | h
      · exact Or.inr (by simp [h])
      · rcases ih h with h' | h'
        · exact Or.inl h'
        · exact Or.inr (List.mem_cons_of_mem _ h')

theorem mem_dictPop {kv : α × β} {k : α} {l : List (α × β)}
    (h : kv ∈ dictPop k l) : kv ∈ l ∧ kv.1 ≠ k := by
  have := List.of_mem_filter h
  refine ⟨List.mem_of_mem_filter h, by simpa using this⟩

theorem dictGet_eq_none_of_forall {k : α} {l : List (α × β)}
    (h : ∀ kv ∈ l, kv.1 ≠ k) : dictGet k l = none := by
  induction l with
  | nil => rfl
  | cons kv rest ih =>
    have hk : kv.1 ≠ k := h kv (by simp)
    simp [dictGet, hk]
    exact ih (fun kv' hkv' => h kv' (List.mem_cons_of_mem _ hkv'))

end DictLemmas

theorem get_lobby_and_player_eq_some {s : ServerState} {pid : String}
    {L : Lobby} {c : PyVal}
    (h : get_lobby_and_player s pid = (some L, some c)) :
    dictGet pid s.player_to_lobby = some c ∧ pyTruthy c = true ∧
      dictGet c s.lobbies = some L := by
  unfold get_lobby_and_player at h
  cases hd : dictGet pid s.player_to_lobby with
  | none => rw [hd] at h; simp at h
  | some code =>
    rw [hd] at h
    by_cases ht : pyTruthy code
    · simp only [ht, if_true, Prod.mk.injEq, Option.some.injEq] at h
      obtain ⟨h1, h2⟩ := h
      subst h2
      exact ⟨rfl, ht, h1⟩
    · simp [ht] at h

theorem phases_map_dictSet {c : PyVal} {L L' : Lobby}
    {l : List (PyVal × Lobby)}
    (hL : dictGet c l = some L)
    (hst : L'.current_state = L.current_state) :
    (dictSet c L' l).map (fun kv => (kv.1, kv.2.current_state)) =
      l.map (fun kv => (kv.1, kv.2.current_state)) := by
  induction l with
  | nil => simp [dictGet] at hL
  | cons kv rest ih =>
    by_cases hk : kv.1 = c
    · have hL2 : kv.2 = L := by
        simp only [dictGet] at hL
        rw [if_pos hk] at hL
        exact Option.some.inj hL
      simp only [dictSet, if_pos hk, List.map_cons]
      rw [hst, hL2, ← hk]
    · have hL2 : dictGet c rest = some L := by
        simp only [dictGet] at hL
        rwa [if_neg hk] at hL
      simp only [dictSet, if_neg hk, List.map_cons]
      rw [ih hL2]

/-- Claim C6 (amended; status: corrected).  Neither `hand_out_prompts` nor
`start_drawing` assigns `lobby.current_state`: whenever `hand_out_prompts`
completes, every live lobby's stored phase is exactly what it was before
(so a lobby in WRITING stays in WRITING, not VIEWING), and `start_drawing`
leaves the whole state — in particular every stored phase — unchanged (the
phase words are only broadcast to the clients). -/
theorem phase_not_advanced_by_viewing_drawing :
    (∀ (s : ServerState) (sid : String) (shuffles : Nat → List PromptCard)
        (fuel : Nat) (r : ServerState × List Emit),
        hand_out_prompts s sid shuffles fuel = some r →
        lobbyPhases r.1 = lobbyPhases s) ∧
    (∀ (s : ServerState) (sid : String),
        lobbyPhases (start_drawing s sid).1 = lobbyPhases s) := by
  constructor
  · intro s sid shuffles fuel r h
    rcases hg : get_lobby_and_player s (get_id_from_sid s sid) with ⟨l?, c?⟩
    cases l? with
    | none =>
      simp only [hand_out_prompts, hg, Option.some.injEq] at h
      subst h
      rfl
    | some lobby =>
      cases hs : shuffleSearch lobby.players shuffles 0 fuel with
      | none =>
        simp only [hand_out_prompts, hg, hs] at h
        exact absurd h (by simp)
      | some pool =>
        cases c? with
        | none =>
          simp only [hand_out_prompts, hg, hs, Option.some.injEq] at h
          subst h
          rfl
        | some c =>
          have hc := (get_lobby_and_player_eq_some hg).2.2
          simp only [hand_out_prompts, hg, hs, Option.some.injEq] at h
          subst h
          simp only [lobbyPhases]
          exact phases_map_dictSet hc rfl
  · intro s sid
    rcases hg : get_lobby_and_player s (get_id_from_sid s sid) with ⟨l?, c?⟩
    cases l? with
    | none => simp only [start_drawing, hg]
    | some lobby => simp only [start_drawing, hg]

/-- Witness for C6: applying the preservation theorem at the concrete `S6`
fixture, whose successful `hand_out_prompts` run is `R6`. -/
theorem phase_not_advanced_by_viewing_drawing_witness :
    lobbyPhases R6.1 = lobbyPhases S6 :=
  phase_not_advanced_by_viewing_drawing.1 S6 "s6h" sh6 1 R6 rfl

/-- Claim C5 (status: code bug).  At a live lobby in phase PRESENTING,
`done_presenting` neither moves the stored phase to END nor delivers any
`game_end` event: the emit coroutine is never awaited (and was addressed to
the sender only), and `current_state` is never assigned.  The claim says the
phase becomes END and the `{username, score}` list is broadcast to the
roster. -/
theorem done_presenting_no_transition_no_broadcast :
    done_presenting S5 "sh5" = (S5, []) ∧
    (dictGet (PyVal.pyInt 7777) S5.lobbies).map Lobby.current_state =
      some GameState.PRESENTING ∧
    GameState.PRESENTING ≠ GameState.END := by
  refine ⟨rfl, rfl, by decide⟩

/-- Claim C7 (status: code bug).  `_generate_lobby_code` tests
`str(code) not in lobbies` while the registry keys are the `int` codes, so a
collision with a live lobby is never detected: with lobby 1000 live and the
sampler returning 1000, the generator accepts 1000 on the first draw and
`create_lobby` silently overwrites the live lobby's registry entry. -/
theorem create_lobby_code_collision_overwrites :
    dictGet (PyVal.pyInt 1000) S7.lobbies = some lobby7 ∧
    lobby7.host_id = "alice" ∧
    generate_lobby_code S7.lobbies (fun _ => 1000) 0 1 = some 1000 ∧
    (create_lobby S7 "sb" (fun _ => 1000) 1).map
        (fun r => (dictGet (PyVal.pyInt 1000) r.1.lobbies).map Lobby.host_id) =
      some (some "bob") := by
  refine ⟨rfl, rfl, rfl, rfl⟩

/-- Claim C9 (status: code bug).  A lobby member's `send_reaction` always
raises: the handler unpacks `(lobby, player)` from `get_lobby_and_player`,
whose second component is the lobby *code*, and then reads
`player.username`, an `AttributeError` on the integer code — the claimed
`reaction({emoji, username})` emit to the host is never reached. -/
theorem send_reaction_raises_attribute_error :
    send_reaction S9 "sm" (.pyStr "clap") =
      .error "AttributeError: 'int' object has no attribute 'username'" := by
  rfl

/-- Claim C6 counterexample.  In a lobby whose stored phase is WRITING, a
successful `hand_out_prompts` leaves the stored phase WRITING (not VIEWING),
and `start_drawing` also leaves it WRITING (not DRAWING): the handlers never
assign `lobby.current_state`. -/
theorem hand_out_prompts_phase_counterexample :
    (hand_out_prompts S6 "s6h" sh6 1).map
        (fun r => (dictGet (PyVal.pyInt 1234) r.1.lobbies).map Lobby.current_state) =
      some (some GameState.WRITING) ∧
    (dictGet (PyVal.pyInt 1234) (start_drawing S6 "s6h").1.lobbies).map
        Lobby.current_state = some GameState.WRITING ∧
    GameState.WRITING ≠ GameState.VIEWING ∧
    GameState.WRITING ≠ GameState.DRAWING := by
  refine ⟨rfl, rfl, by decide, by decide⟩

theorem shuffleSearch_singleton_none (p : Player)
    (shuffles : Nat → List PromptCard)
    (hsh : ∀ k, shuffles k = [⟨p.prompt_written, p.id⟩]) :
    ∀ fuel k, shuffleSearch [p] shuffles k fuel = none := by
  intro fuel
  induction fuel with
  | zero => intro k; rfl
  | succ n ih =>
    intro k
    simp only [shuffleSearch, hsh k, derangementOk, List.zip_cons_cons,
      List.zip_nil_right, List.all_cons, List.all_nil, bne_self_eq_false,
      Bool.false_and, Bool.false_eq_true, if_false]
    exact ih (k + 1)

/-- Claim C1 (status: code bug).  When the resolved lobby's roster holds a
single player, every shuffle of the one-card prompt pool keeps the card with
its owner, so the acceptance test of the `while True` loop in
`hand_out_prompts` never passes: the handler diverges for every fuel bound
instead of refusing the transition as the claim requires for N = 1. -/
theorem hand_out_prompts_single_player_never_terminates
    (s : ServerState) (sid : String) (lobby : Lobby) (c : PyVal) (p : Player)
    (hglp : get_lobby_and_player s (get_id_from_sid s sid) =
      (some lobby, some c))
    (hps : lobby.players = [p])
    (shuffles : Nat → List PromptCard)
    (hperm : ∀ k, (shuffles k).Perm [⟨p.prompt_written, p.id⟩])
    (fuel : Nat) :
    hand_out_prompts s sid shuffles fuel = none := by
  have hsh : ∀ k, shuffles k = [⟨p.prompt_written, p.id⟩] :=
    fun k => List.perm_singleton.mp (hperm k)
  have hsearch := shuffleSearch_singleton_none p shuffles hsh fuel 0
  simp only [hand_out_prompts, hglp, hps, hsearch]

/-- Witness for C1: a concrete one-player lobby on which `hand_out_prompts`
returns no result within (an arbitrary) fuel bound of 5. -/
theorem hand_out_prompts_single_player_never_terminates_witness :
    hand_out_prompts S1 "s1h" sh1 5 = none :=
  hand_out_prompts_single_player_never_terminates S1 "s1h" lobby1
    (.pyInt 5555) { id := "h1", username := .pyStr "Solo",
                    prompt_written := some "axolotl" }
    rfl rfl sh1 (fun _ => List.Perm.refl _) 5

/-- Claim C8 counterexample.  Right after `create_lobby`, the host's identity
is present in the reverse index, yet no live lobby's roster contains it (the
new lobby's roster is empty and it is the only live lobby): the claimed
"indexed iff in some live roster" equivalence fails. -/
theorem reverse_index_host_not_in_roster_counterexample :
    (create_lobby S8 "sh8" (fun _ => 4321) 1).map
        (fun r => (dictGet "h8" r.1.player_to_lobby,
                   r.1.lobbies.map (fun kv => kv.2.players))) =
      some (some (.pyInt 4321), [[]]) := by
  rfl

theorem flag_first_voter_of_none (pid : String) :
    ∀ ps : List Player, (∀ p ∈ ps, p.id = pid → p.voted_already = true) →
      flag_first_voter pid ps = (ps, false) := by
  intro ps
  induction ps with
  | nil => intro _; rfl
  | cons q rest ih =>
    intro h
    have hcond : ¬(q.id = pid ∧ q.voted_already = false) := by
      rintro ⟨h1, h2⟩
      rw [h q (List.mem_cons_self _ _) h1] at h2
      cases h2
    simp only [flag_first_voter, if_neg hcond,
      ih (fun p hp hid => h p (List.mem_cons_of_mem _ hp) hid)]

theorem flag_first_voter_map (pid : String) (v : Player)
    (hvid : v.id = pid) (hvf : v.voted_already = false) :
    ∀ ps : List Player, (ps.map Player.id).Nodup → v ∈ ps →
      flag_first_voter pid ps =
        (ps.map (fun p =>
          if p.id = pid then { p with voted_already := true } else p), true) := by
  intro ps
  induction ps with
  | nil => intro _ hv; cases hv
  | cons q rest ih =>
    intro hnd hv
    rw [List.map_cons, List.nodup_cons] at hnd
    rcases List.mem_cons.mp hv with heq | hvrest
    · subst heq
      have hrest : ∀ p ∈ rest, p.id ≠ pid := by
        intro p hp hpid
        exact hnd.1 (by rw [hvid]; exact hpid ▸ List.mem_map_of_mem Player.id hp)
      have hcond : v.id = pid ∧ v.voted_already = false := ⟨hvid, hvf⟩
      have hmapRest :
          rest.map (fun p =>
            if p.id = pid then { p with voted_already := true } else p) = rest := by
        have h1 : rest.map (fun p =>
            if p.id = pid then { p with voted_already := true } else p) =
            rest.map id :=
          List.map_congr_left (fun p hp => by rw [if_neg (hrest p hp)]; rfl)
        rw [h1, List.map_id]
      simp only [flag_first_voter, if_pos hcond, List.map_cons, if_pos hvid,
        hmapRest]
    · have hqid : q.id ≠ pid := by
        intro hq
        exact hnd.1 (by rw [hq, ← hvid]; exact List.mem_map_of_mem Player.id hvrest)
      have hcond : ¬(q.id = pid ∧ q.voted_already = false) := fun hc => hqid hc.1
      simp only [flag_first_voter, if_neg hcond, List.map_cons, if_neg hqid,
        ih hnd.2 hvrest]

theorem bump_first_of_no_target (tid : PyVal) (data : List (String × PyVal)) :
    ∀ ps : List Player, (∀ p ∈ ps, PyVal.pyStr p.id ≠ tid) →
      bump_first tid data ps = .ok ps := by
  intro ps
  induction ps with
  | nil => intro _; rfl
  | cons q rest ih =>
    intro h
    simp only [bump_first, if_neg (h q (List.mem_cons_self _ _)),
      ih (fun p hp => h p (List.mem_cons_of_mem _ hp))]

theorem bump_first_map (data : List (String × PyVal)) (tgt : String)
    (sc : PyVal) (k : Int) (t : Player) (htid : t.id = tgt)
    (hsc : dictGet "score" data = some sc) (hk : pyToIntArith sc = .ok k) :
    ∀ ps : List Player, (ps.map Player.id).Nodup → t ∈ ps →
      bump_first (.pyStr tgt) data ps =
        .ok (ps.map (fun p =>
          if p.id = tgt then { p with voting_score := p.voting_score + k }
          else p)) := by
  intro ps
  induction ps with
  | nil => intro _ hv; cases hv
  | cons q rest ih =>
    intro hnd hv
    rw [List.map_cons, List.nodup_cons] at hnd
    rcases List.mem_cons.mp hv with heq | hvrest
    · subst heq
      have hrest : ∀ p ∈ rest, p.id ≠ tgt := by
        intro p hp hpid
        exact hnd.1 (by rw [htid]; exact hpid ▸ List.mem_map_of_mem Player.id hp)
      have hcond : PyVal.pyStr t.id = PyVal.pyStr tgt := by rw [htid]
      have hmapRest :
          rest.map (fun p =>
            if p.id = tgt then { p with voting_score := p.voting_score + k }
            else p) = rest := by
        have h1 : rest.map (fun p =>
            if p.id = tgt then { p with voting_score := p.voting_score + k }
            else p) = rest.map id :=
          List.map_congr_left (fun p hp => by rw [if_neg (hrest p hp)]; rfl)
        rw [h1, List.map_id]
      simp only [bump_first, if_pos hcond, pyIndex, hsc, hk, List.map_cons,
        if_pos htid, hmapRest]
    · have hqid : q.id ≠ tgt := by
        intro hq
        exact hnd.1 (by rw [hq, ← htid]; exact List.mem_map_of_mem Player.id hvrest)
      have hcond : PyVal.pyStr q.id ≠ PyVal.pyStr tgt := by simpa using hqid
      simp only [bump_first, if_neg hcond, List.map_cons, if_neg hqid,
        ih hnd.2 hvrest]

theorem flag_preserves_ids (pid : String) (ps : List Player) :
    ((ps.map (fun p =>
        if p.id = pid then { p with voted_already := true } else p)).map
      Player.id) = ps.map Player.id := by
  rw [List.map_map]
  exact List.map_congr_left (fun p _ => by
    by_cases h : p.id = pid <;> simp [Function.comp, h])

/-- Claim C10 (status: confirmed).  When a lobby member votes for an id that
matches no roster member (and is not their own), the voter's
`voted_already` flag is still set — consuming their single vote for the
round — no score changes (the inner target scan finds nothing; the score
field of the payload is not even read), and the `voted` acknowledgment is
still sent to the voter. -/
theorem vote_unknown_target_consumes_vote
    (s : ServerState) (sid : String) (data : List (String × PyVal))
    (lobby : Lobby) (c : PyVal) (pid tgt : String) (v : Player)
    (hpid : get_id_from_sid s sid = pid)
    (hglp : get_lobby_and_player s pid = (some lobby, some c))
    (hnd : (lobby.players.map Player.id).Nodup)
    (hv : v ∈ lobby.players) (hvid : v.id = pid) (hvf : v.voted_already = false)
    (hid : dictGet "id" data = some (.pyStr tgt)) (htgt : tgt ≠ pid)
    (hno : ∀ q ∈ lobby.players, q.id ≠ tgt) :
    vote_presentation s sid data =
      .ok ({ s with
               lobbies := dictSet c
                 ({ lobby with
                      players := lobby.players.map (fun p =>
                        if p.id = pid then { p with voted_already := true }
                        else p) })
                 s.lobbies },
           [⟨"voted", .v .pyNone, sid⟩]) := by
  have hany : lobby.players.any (fun p => p.id == pid) = true :=
    List.any_eq_true.mpr ⟨v, hv, by simp [hvid]⟩
  have htid : (PyVal.pyStr tgt) ≠ PyVal.pyStr pid := by simpa using htgt
  have hfl := flag_first_voter_map pid v hvid hvf lobby.players hnd hv
  have hnobump :
      bump_first (.pyStr tgt) data
        (lobby.players.map (fun p =>
          if p.id = pid then { p with voted_already := true } else p)) =
      .ok (lobby.players.map (fun p =>
          if p.id = pid then { p with voted_already := true } else p)) := by
    apply bump_first_of_no_target
    intro p hp
    obtain ⟨q, hq, rfl⟩ := List.mem_map.mp hp
    have hq' : q.id ≠ tgt := hno q hq
    by_cases h : q.id = pid
    · simp [h]
      exact fun hh => hq' (h.trans hh)
    · simp [h, hq']
  simp only [vote_presentation, hpid, hglp, hany, if_true, pyIndex, hid,
    if_neg htid, hfl, hnobump]

/-- Witness for C10: the concrete voter `v4` in lobby 8888 votes for the
unknown id `zz`; the vote is consumed and only the flag changes. -/
theorem vote_unknown_target_consumes_vote_witness :
    vote_presentation S4 "s4v" data10 =
      .ok ({ S4 with
               lobbies := dictSet (.pyInt 8888)
                 ({ lobby4 with
                      players := lobby4.players.map (fun p =>
                        if p.id = "v4" then { p with voted_already := true }
                        else p) })
                 S4.lobbies },
           [⟨"voted", .v .pyNone, "s4v"⟩]) :=
  vote_unknown_target_consumes_vote S4 "s4v" data10 lobby4 (.pyInt 8888)
    "v4" "zz" { id := "v4", username := .pyStr "Vic" }
    rfl rfl (by decide) (by decide) rfl rfl rfl (by decide) (by decide)

theorem set_presenter_loop_resets (s : ServerState)
    (data : List (String × PyVal)) (tid : PyVal)
    (hid : dictGet "id" data = some tid) :
    ∀ ps : List Player, ∃ es,
      set_presenter_loop s data ps = .ok (ps.map resetFlag, es) := by
  intro ps
  induction ps with
  | nil => exact ⟨[], rfl⟩
  | cons p rest ih =>
    obtain ⟨es, hes⟩ := ih
    refine ⟨(if tid = .pyStr p.id then
              (⟨"you_are_presenting", .dict data, get_sid_from_id s p.id⟩ : Emit)
             else
              ⟨"current_presenter", .dict data, get_sid_from_id s p.id⟩) :: es, ?_⟩
    simp only [set_presenter_loop, pyIndex, hid, hes, List.map_cons, resetFlag]

/-- Claim C4 (status: confirmed).  Within one presentation round: (1) a vote
targeting oneself changes nothing (not even the vote flag) while the voter is
still acknowledged; (2) the first vote from an unspent voter targeting
another roster member marks the voter as having voted and adds exactly the
submitted amount to that member's score, leaving everyone else untouched,
with the acknowledgment sent; (3) a further vote from the same voter in the
same round changes nothing and is still acknowledged; (4) `set_presenter`
resets every player's vote flag, opening the next round. -/
theorem vote_round_semantics :
    (∀ (s : ServerState) (sid : String) (data : List (String × PyVal))
        (lobby : Lobby) (c : PyVal) (pid : String) (v : Player),
        get_id_from_sid s sid = pid →
        get_lobby_and_player s pid = (some lobby, some c) →
        v ∈ lobby.players → v.id = pid →
        dictGet "id" data = some (.pyStr pid) →
        vote_presentation s sid data = .ok (s, [⟨"voted", .v .pyNone, sid⟩])) ∧
    (∀ (s : ServerState) (sid : String) (data : List (String × PyVal))
        (lobby : Lobby) (c : PyVal) (pid tgt : String) (sc : PyVal) (k : Int)
        (v t : Player),
        get_id_from_sid s sid = pid →
        get_lobby_and_player s pid = (some lobby, some c) →
        (lobby.players.map Player.id).Nodup →
        v ∈ lobby.players → v.id = pid → v.voted_already = false →
        t ∈ lobby.players → t.id = tgt → tgt ≠ pid →
        dictGet "id" data = some (.pyStr tgt) →
        dictGet "score" data = some sc → pyToIntArith sc = .ok k →
        vote_presentation s sid data =
          .ok ({ s with
                   lobbies := dictSet c
                     ({ lobby with
                          players := lobby.players.map (fun p =>
                            if p.id = pid then { p with voted_already := true }
                            else if p.id = tgt then
                              { p with voting_score := p.voting_score + k }
                            else p) })
                     s.lobbies },
               [⟨"voted", .v .pyNone, sid⟩])) ∧
    (∀ (s : ServerState) (sid : String) (data : List (String × PyVal))
        (lobby : Lobby) (c : PyVal) (pid tgt : String) (v : Player),
        get_id_from_sid s sid = pid →
        get_lobby_and_player s pid = (some lobby, some c) →
        (lobby.players.map Player.id).Nodup →
        v ∈ lobby.players → v.id = pid → v.voted_already = true →
        dictGet "id" data = some (.pyStr tgt) → tgt ≠ pid →
        vote_presentation s sid data = .ok (s, [⟨"voted", .v .pyNone, sid⟩])) ∧
    (∀ (s : ServerState) (sid : String) (data : List (String × PyVal))
        (lobby : Lobby) (c : PyVal) (tid : PyVal),
        get_lobby_and_player s (get_id_from_sid s sid) = (some lobby, some c) →
        dictGet "id" data = some tid →
        ∃ es, set_presenter s sid data =
          .ok ({ s with
                   lobbies := dictSet c
                     ({ lobby with players := lobby.players.map resetFlag })
                     s.lobbies }, es)) := by
  refine ⟨?_, ?_, ?_, ?_⟩
  · -- (1) self-vote: the outer condition fails for every candidate
    intro s sid data lobby c pid v hpid hglp hv hvid hid
    have hany : lobby.players.any (fun p => p.id == pid) = true :=
      List.any_eq_true.mpr ⟨v, hv, by simp [hvid]⟩
    simp [vote_presentation, hpid, hglp, hany, pyIndex, hid]
  · -- (2) first vote for another member
    intro s sid data lobby c pid tgt sc k v t hpid hglp hnd hv hvid hvf ht
      htid htgtpid hid hsc hk
    have hany : lobby.players.any (fun p => p.id == pid) = true :=
      List.any_eq_true.mpr ⟨v, hv, by simp [hvid]⟩
    have htid' : (PyVal.pyStr tgt) ≠ PyVal.pyStr pid := by simpa using htgtpid
    have hfl := flag_first_voter_map pid v hvid hvf lobby.players hnd hv
    have hidspres := flag_preserves_ids pid lobby.players
    have hnd1 : ((lobby.players.map (fun p =>
        if p.id = pid then { p with voted_already := true } else p)).map
          Player.id).Nodup := by
      rw [hidspres]; exact hnd
    have hf1t : (if t.id = pid then { t with voted_already := true } else t)
        = t := if_neg (by rw [htid]; exact htgtpid)
    have ht1 : t ∈ lobby.players.map (fun p =>
        if p.id = pid then { p with voted_already := true } else p) :=
      List.mem_map.mpr ⟨t, ht, hf1t⟩
    have hbump := bump_first_map data tgt sc k t htid hsc hk
      (lobby.players.map (fun p =>
        if p.id = pid then { p with voted_already := true } else p)) hnd1 ht1
    have hfinal : (lobby.players.map (fun p =>
          if p.id = pid then { p with voted_already := true } else p)).map
            (fun p => if p.id = tgt then
              { p with voting_score := p.voting_score + k } else p)
        = lobby.players.map (fun p =>
            if p.id = pid then { p with voted_already := true }
            else if p.id = tgt then
              { p with voting_score := p.voting_score + k }
            else p) := by
      rw [List.map_map]
      apply List.map_congr_left
      intro p _
      by_cases h : p.id = pid
      · have hnt : p.id ≠ tgt := by
          rw [h]; exact fun hh => htgtpid hh.symm
        simp only [Function.comp, if_pos h]
        rw [if_neg (show ¬(({ p with voted_already := true } : Player).id = tgt)
          from hnt)]
      · simp only [Function.comp, if_neg h]
    rw [hfinal] at hbump
    simp only [vote_presentation, hpid, hglp, hany, if_true, pyIndex, hid,
      if_neg htid', hfl, hbump]
  · -- (3) repeat vote in the same round: the flag blocks the break
    intro s sid data lobby c pid tgt v hpid hglp hnd hv hvid hvt hid htgtpid
    have hany : lobby.players.any (fun p => p.id == pid) = true :=
      List.any_eq_true.mpr ⟨v, hv, by simp [hvid]⟩
    have hall : ∀ p ∈ lobby.players, p.id = pid → p.voted_already = true := by
      intro p hp hpidp
      have hpv : p = v :=
        List.inj_on_of_nodup_map hnd hp hv (by rw [hpidp, hvid])
      rw [hpv]; exact hvt
    have hfl := flag_first_voter_of_none pid lobby.players hall
    have htid' : (PyVal.pyStr tgt) ≠ PyVal.pyStr pid := by simpa using htgtpid
    simp [vote_presentation, hpid, hglp, hany, pyIndex, hid, if_neg htid', hfl]
  · -- (4) set_presenter resets every flag
    intro s sid data lobby c tid hglp hid
    obtain ⟨es, hes⟩ := set_presenter_loop_resets s data tid hid lobby.players
    exact ⟨es, by simp only [set_presenter, hglp, hes]⟩

/-- Witness for C4: the unspent voter `v4` in lobby 8888 votes 7 points for
roster member `t4`; exactly `t4`'s score grows by 7 and `v4`'s flag is set. -/
theorem vote_round_semantics_witness :
    vote_presentation S4 "s4v" data4 =
      .ok ({ S4 with
               lobbies := dictSet (.pyInt 8888)
                 ({ lobby4 with
                      players := lobby4.players.map (fun p =>
                        if p.id = "v4" then { p with voted_already := true }
                        else if p.id = "t4" then
                          { p with voting_score := p.voting_score + 7 }
                        else p) })
                 S4.lobbies },
           [⟨"voted", .v .pyNone, "s4v"⟩]) :=
  vote_round_semantics.2.1 S4 "s4v" data4 lobby4 (.pyInt 8888) "v4" "t4"
    (.pyInt 7) 7 { id := "v4", username := .pyStr "Vic" }
    { id := "t4", username := .pyStr "Tess" }
    rfl rfl (by decide) (by decide) rfl rfl (by decide) rfl (by decide)
    rfl rfl rfl

/-- Claim C3 counterexample.  A successful join of lobby 4444 — whose roster
already holds the connected member `m3` (bound to sid `s3m`) besides the
host — emits only to the joiner (`s3j`) and to the host (`s3h`): the claimed
`players_update` to *all members* never happens, `s3m` receives nothing. -/
theorem join_lobby_no_members_update_counterexample :
    lobby3.players.map Player.id = ["h3", "m3"] ∧
    dictGet "m3" S3.id_to_sid = some "s3m" ∧
    dictGet (PyVal.pyInt 4444) S3.lobbies = some lobby3 ∧
    lobby3.current_state = GameState.WAITING ∧
    (join_lobby S3 "s3j" data3).2.map Emit.target = ["s3j", "s3h"] := by
  refine ⟨rfl, rfl, rfl, rfl, rfl⟩

/-- Claim C3 (amended; status: corrected).  `join_lobby` answers the sender
with exactly the claimed `error(message)` whenever validation fails (missing
or falsy fields, unknown code, phase ≠ WAITING, roster at the 12 ceiling —
so an accepted join keeps the roster at ≤ 12); on success it emits
`joined_lobby(code)` to the sender and `players_update(roster)` to the
*host's* bound connection only — no other roster member is notified. -/
theorem join_lobby_emit_spec (s : ServerState) (sid : String)
    (data : List (String × PyVal)) :
    (∀ msg, join_lobby_spec_error s data = some msg →
        join_lobby s sid data = (s, [⟨"error", .v (.pyStr msg), sid⟩])) ∧
    (join_lobby_spec_error s data = none →
        ∀ codeV lobby, dictGet "lobby_code" data = some codeV →
          dictGet codeV s.lobbies = some lobby →
          (join_lobby s sid data).2.head? =
            some ⟨"joined_lobby", .v (.pyInt lobby.lobby_code), sid⟩ ∧
          (∀ e ∈ (join_lobby s sid data).2.tail, e.event = "players_update" ∧
              dictGet lobby.host_id s.id_to_sid = some e.target) ∧
          (∀ L', dictGet codeV (join_lobby s sid data).1.lobbies = some L' →
              L'.players.length = lobby.players.length + 1 ∧
              L'.players.length ≤ 12)) := by
  constructor
  · intro msg hmsg
    cases hu : dictGet "username" data with
    | none =>
      simp only [join_lobby_spec_error, hu, Option.some.injEq] at hmsg
      subst hmsg
      simp [join_lobby, hu]
    | some uname =>
      cases hc : dictGet "lobby_code" data with
      | none =>
        simp only [join_lobby_spec_error, hu, hc, Option.some.injEq] at hmsg
        subst hmsg
        simp [join_lobby, hu, hc]
      | some codeV =>
        simp only [join_lobby_spec_error, hu, hc] at hmsg
        by_cases htr : (!pyTruthy uname || !pyTruthy codeV) = true
        · rw [if_pos htr, Option.some.injEq] at hmsg
          subst hmsg
          simp only [join_lobby, hu, hc]
          rw [if_pos htr]
        · rw [if_neg htr] at hmsg
          cases hl : dictGet codeV s.lobbies with
          | none =>
            simp only [hl, Option.some.injEq] at hmsg
            subst hmsg
            simp only [join_lobby, hu, hc, hl]
            rw [if_neg htr]
          | some lobby =>
            simp only [hl] at hmsg
            by_cases hst : lobby.current_state ≠ GameState.WAITING
            · rw [if_pos hst, Option.some.injEq] at hmsg
              subst hmsg
              simp only [join_lobby, hu, hc, hl]
              rw [if_neg htr, if_pos hst]
            · rw [if_neg hst] at hmsg
              by_cases hcap : 12 ≤ lobby.players.length
              · rw [if_pos hcap, Option.some.injEq] at hmsg
                subst hmsg
                simp only [join_lobby, hu, hc, hl]
                rw [if_neg htr, if_neg hst, if_pos hcap]
              · rw [if_neg hcap] at hmsg
                cases hmsg
  · intro hnone codeV lobby hc hl
    cases hu : dictGet "username" data with
    | none => simp [join_lobby_spec_error, hu] at hnone
    | some uname =>
      simp only [join_lobby_spec_error, hu, hc] at hnone
      by_cases htr : (!pyTruthy uname || !pyTruthy codeV) = true
      · rw [if_pos htr] at hnone
        cases hnone
      · rw [if_neg htr] at hnone
        simp only [hl] at hnone
        by_cases hst : lobby.current_state ≠ GameState.WAITING
        · rw [if_pos hst] at hnone
          cases hnone
        · rw [if_neg hst] at hnone
          by_cases hcap : 12 ≤ lobby.players.length
          · rw [if_pos hcap] at hnone
            cases hnone
          · have hj : join_lobby s sid data =
                ({ s with
                     player_to_lobby :=
                       dictSet (get_id_from_sid s sid)
                         (PyVal.pyInt lobby.lobby_code) s.player_to_lobby,
                     lobbies := dictSet codeV
                       ({ lobby with
                            players := lobby.players ++
                              [{ id := get_id_from_sid s sid,
                                 username := uname }] })
                       s.lobbies },
                 (⟨"joined_lobby", .v (.pyInt lobby.lobby_code), sid⟩ : Emit) ::
                   (match dictGet lobby.host_id s.id_to_sid with
                    | some hs =>
                      if hs ≠ "" then
                        [⟨"players_update",
                          Payload.players
                            ((lobby.players ++
                              [({ id := get_id_from_sid s sid,
                                  username := uname } : Player)]).map
                              Player.get_as_dict),
                          hs⟩]
                      else []
                    | none => [])) := by
              simp only [join_lobby, hu, hc, hl]
              rw [if_neg htr, if_neg hst, if_neg hcap]
            refine ⟨?_, ?_, ?_⟩
            · rw [hj]
              rfl
            · intro e he
              rw [hj] at he
              simp only [List.tail_cons] at he
              cases hh : dictGet lobby.host_id s.id_to_sid with
              | none => simp only [hh] at he; cases he
              | some hs =>
                simp only [hh] at he
                by_cases hhs : hs ≠ ""
                · rw [if_pos hhs] at he
                  rcases List.mem_singleton.mp he with rfl
                  exact ⟨rfl, rfl⟩
                · rw [if_neg hhs] at he
                  cases he
            · intro L' hL'
              rw [hj] at hL'
              simp only at hL'
              rw [dictGet_set_self] at hL'
              obtain rfl := Option.some.inj hL'
              refine ⟨by simp, ?_⟩
              simp only [List.length_append, List.length_cons, List.length_nil]
              omega

/-- Witness for C3: the concrete join of `S3`'s lobby 4444 is accepted and
its first emit is `joined_lobby(4444)` to the joining sid. -/
theorem join_lobby_emit_spec_witness :
    (join_lobby S3 "s3j" data3).2.head? =
      some ⟨"joined_lobby", .v (.pyInt 4444), "s3j"⟩ :=
  ((join_lobby_emit_spec S3 "s3j" data3).2 rfl (.pyInt 4444) lobby3
    rfl rfl).1

theorem dictGet_filter_eq_none {α β : Type} [DecidableEq α] {k : α}
    {p : α × β → Bool} :
    ∀ l : List (α × β), (∀ kv ∈ l, kv.1 = k → p kv = false) →
      dictGet k (l.filter p) = none := by
  intro l
  induction l with
  | nil => intro _; rfl
  | cons kv rest ih =>
    intro h
    by_cases hk : kv.1 = k
    · have hp := h kv (List.mem_cons_self _ _) hk
      simp only [List.filter_cons, hp, Bool.false_eq_true, if_false]
      exact ih (fun kv' h' hk' => h kv' (List.mem_cons_of_mem _ h') hk')
    · by_cases hp : p kv = true
      · simp only [List.filter_cons, hp, if_true, dictGet, if_neg hk]
        exact ih (fun kv' h' hk' => h kv' (List.mem_cons_of_mem _ h') hk')
      · have hp' : p kv = false := by simpa using hp
        simp only [List.filter_cons, hp', Bool.false_eq_true, if_false]
        exact ih (fun kv' h' hk' => h kv' (List.mem_cons_of_mem _ h') hk')

theorem host_teardown_lobbies (pid : String) :
    ∀ (ps : List Player) (s : ServerState),
      (host_teardown pid ps s).1.lobbies = s.lobbies := by
  intro ps
  induction ps with
  | nil => intro s; rfl
  | cons q rest ih =>
    intro s
    by_cases hq : q.id = pid
    · simp only [host_teardown, if_pos hq]
      exact ih s
    · cases hsd : dictGet q.id s.id_to_sid with
      | none =>
        simp only [host_teardown, if_neg hq, hsd]
        exact ih _
      | some sd =>
        simp only [host_teardown, if_neg hq, hsd]
        exact ih _

theorem host_teardown_emits (pid : String) :
    ∀ (ps : List Player) (s : ServerState), (ps.map Player.id).Nodup →
      (host_teardown pid ps s).2 =
        ps.filterMap (fun q =>
          if q.id = pid then none
          else
            match dictGet q.id s.id_to_sid with
            | some sd =>
              if sd ≠ "" then
                some (⟨"disconnected", .v (.pyStr hostMsg), sd⟩ : Emit)
              else none
            | none => none) := by
  intro ps
  induction ps with
  | nil => intro s _; rfl
  | cons q rest ih =>
    intro s hnd
    rw [List.map_cons, List.nodup_cons] at hnd
    have hrest_ne : ∀ r ∈ rest, r.id ≠ q.id := by
      intro r hr hrq
      exact hnd.1 (hrq ▸ List.mem_map_of_mem Player.id hr)
    by_cases hq : q.id = pid
    · simp only [host_teardown, if_pos hq, List.filterMap_cons, if_pos hq]
      exact ih s hnd.2
    · cases hsd : dictGet q.id s.id_to_sid with
      | none =>
        simp only [host_teardown, if_neg hq, hsd, List.filterMap_cons,
          if_neg hq]
        rw [ih _ hnd.2]
        refine List.filterMap_congr (fun r hr => ?_)
        by_cases hrp : r.id = pid
        · simp only [if_pos hrp]
        · simp only [if_neg hrp,
            dictGet_pop_ne q.id r.id s.id_to_sid (hrest_ne r hr)]
      | some sd =>
        simp only [host_teardown, if_neg hq, hsd, List.filterMap_cons,
          if_neg hq]
        have htail : (host_teardown pid rest
            { s with id_to_sid := dictPop q.id s.id_to_sid,
                     player_to_lobby := dictPop q.id s.player_to_lobby,
                     sid_to_id := dictPop sd s.sid_to_id }).2 =
            rest.filterMap (fun r =>
              if r.id = pid then none
              else
                match dictGet r.id s.id_to_sid with
                | some sd' =>
                  if sd' ≠ "" then
                    some (⟨"disconnected", .v (.pyStr hostMsg), sd'⟩ : Emit)
                  else none
                | none => none) := by
          rw [ih _ hnd.2]
          refine List.filterMap_congr (fun r hr => ?_)
          by_cases hrp : r.id = pid
          · simp only [if_pos hrp]
          · simp only [if_neg hrp,
              dictGet_pop_ne q.id r.id s.id_to_sid (hrest_ne r hr)]
        by_cases hsd' : sd ≠ ""
        · simp only [if_pos hsd', htail, List.singleton_append]
        · simp only [if_neg hsd', htail, List.nil_append]

theorem host_teardown_ptl (pid : String) :
    ∀ (ps : List Player) (s : ServerState),
      (host_teardown pid ps s).1.player_to_lobby =
        s.player_to_lobby.filter (fun kv =>
          !(ps.any (fun q => q.id == kv.1 && q.id != pid))) := by
  intro ps
  induction ps with
  | nil =>
    intro s
    simp [host_teardown]
  | cons q rest ih =>
    intro s
    by_cases hq : q.id = pid
    · simp only [host_teardown, if_pos hq]
      rw [ih]
      refine List.filter_congr (fun kv _ => ?_)
      simp [List.any_cons, hq]
    · have hstep : ∀ s' : ServerState,
          s'.player_to_lobby = dictPop q.id s.player_to_lobby →
          (host_teardown pid rest s').1.player_to_lobby =
            s.player_to_lobby.filter (fun kv =>
              !((q :: rest).any (fun r => r.id == kv.1 && r.id != pid))) := by
        intro s' hps'
        rw [ih s', hps', dictPop, List.filter_filter]
        refine List.filter_congr (fun kv _ => ?_)
        by_cases h : kv.1 = q.id
        · simp [List.any_cons, h, hq]
        · simp [List.any_cons, h, hq, Ne.symm h]
      cases hsd : dictGet q.id s.id_to_sid with
      | none =>
        simp only [host_teardown, if_neg hq, hsd]
        exact hstep _ rfl
      | some sd =>
        simp only [host_teardown, if_neg hq, hsd]
        exact hstep _ rfl

/-- Claim C2 (status: confirmed).  When the disconnecting connection resolves
to the host of a live lobby, then — provided the roster ids are distinct and
every other member has a live (non-empty) connection binding, with distinct
bound sids — the lobby is removed from the registry, every roster identity
(and the host's) disappears from the reverse index, and each remaining
member's connection receives the "host disconnected" notice exactly once. -/
theorem disconnect_host_teardown_spec
    (s0 : ServerState) (sid pid : String) (c : PyVal) (lobby : Lobby)
    (hsid : dictGet sid s0.sid_to_id = some pid)
    (hpid : pid ≠ "")
    (hpl : dictGet pid s0.player_to_lobby = some c)
    (hcT : pyTruthy c = true)
    (hlb : dictGet c s0.lobbies = some lobby)
    (hhost : lobby.host_id = pid)
    (hnd : (lobby.players.map Player.id).Nodup)
    (hbound : ∀ q ∈ lobby.players, q.id ≠ pid →
        ∃ sd, dictGet q.id s0.id_to_sid = some sd ∧ sd ≠ "")
    (hinj : (lobby.players.filterMap (fun q =>
        if q.id = pid then none
        else dictGet q.id s0.id_to_sid)).Nodup) :
    dictGet c (disconnect s0 sid).1.lobbies = none ∧
    (∀ q ∈ lobby.players,
        dictGet q.id (disconnect s0 sid).1.player_to_lobby = none) ∧
    dictGet pid (disconnect s0 sid).1.player_to_lobby = none ∧
    (∀ q ∈ lobby.players, q.id ≠ pid → ∀ sd,
        dictGet q.id s0.id_to_sid = some sd →
        (disconnect s0 sid).2.count
          ⟨"disconnected", .v (.pyStr hostMsg), sd⟩ = 1) := by
  have hglp1 : get_lobby_and_player
      { s0 with sid_to_id := dictPop sid s0.sid_to_id } pid =
      (some lobby, some c) := by
    simp only [get_lobby_and_player, hpl, hcT, if_true, hlb]
  simp only [disconnect, hsid, if_neg hpid, hglp1, if_pos hhost,
    host_teardown_ptl, host_teardown_emits pid lobby.players _ hnd]
  refine ⟨?_, ?_, ?_, ?_⟩
  · exact dictGet_pop_self c _
  · intro q hq
    by_cases hqn : q.id = pid
    · rw [hqn]
      refine dictGet_filter_eq_none _ (fun kv hkv hk1 => ?_)
      exact absurd hk1 (mem_dictPop hkv).2
    · refine dictGet_filter_eq_none _ (fun kv hkv hk1 => ?_)
      have hany : lobby.players.any
          (fun r => r.id == kv.1 && r.id != pid) = true :=
        List.any_eq_true.mpr ⟨q, hq, by simp [hk1, hqn]⟩
      simp [hany]
  · refine dictGet_filter_eq_none _ (fun kv hkv hk1 => ?_)
    exact absurd hk1 (mem_dictPop hkv).2
  · intro q hq hqn sd hsd
    have hcongr : lobby.players.filterMap (fun r =>
        if r.id = pid then none
        else
          match dictGet r.id
              (dictPop pid s0.id_to_sid) with
          | some sd' =>
            if sd' ≠ "" then
              some (⟨"disconnected", .v (.pyStr hostMsg), sd'⟩ : Emit)
            else none
          | none => none) =
        lobby.players.filterMap (fun r =>
          (if r.id = pid then none
           else dictGet r.id s0.id_to_sid).map
            (fun sd' => (⟨"disconnected", .v (.pyStr hostMsg), sd'⟩ : Emit))) := by
      refine List.filterMap_congr (fun r hr => ?_)
      by_cases hrp : r.id = pid
      · simp [if_pos hrp]
      · obtain ⟨sd', hsd', hne'⟩ := hbound r hr hrp
        simp [if_neg hrp, dictGet_pop_ne pid r.id s0.id_to_sid hrp, hsd', hne']
    rw [hcongr, ← List.map_filterMap]
    have hmkinj : Function.Injective
        (fun sd' => (⟨"disconnected", .v (.pyStr hostMsg), sd'⟩ : Emit)) := by
      intro a b h
      simpa using h
    rw [List.count_map_of_injective _ _ hmkinj sd]
    refine List.count_eq_one_of_mem hinj ?_
    exact List.mem_filterMap.mpr ⟨q, hq, by simp [if_neg hqn, hsd]⟩

/-- Witness for C2: host `h2` of lobby 3333 disconnects; the lobby is gone
and member `a2`'s connection `sa2` is notified exactly once. -/
theorem disconnect_host_teardown_spec_witness :
    dictGet (PyVal.pyInt 3333) (disconnect S2x "sh2").1.lobbies = none ∧
    (disconnect S2x "sh2").2.count
      ⟨"disconnected", .v (.pyStr hostMsg), "sa2"⟩ = 1 := by
  have h := disconnect_host_teardown_spec S2x "sh2" "h2" (.pyInt 3333) lobby2
    rfl (by decide) rfl rfl rfl rfl (by decide)
    (by
      intro q hq hne
      have hq2 : q ∈ [({ id := "h2", username := .pyStr "Hero" } : Player),
                      { id := "a2", username := .pyStr "Ada" },
                      { id := "b2", username := .pyStr "Ben" }] := hq
      cases hq2 with
      | head => exact absurd rfl hne
      | tail _ hq3 =>
        cases hq3 with
        | head => exact ⟨"sa2", rfl, by decide⟩
        | tail _ hq4 =>
          cases hq4 with
          | head => exact ⟨"sb2", rfl, by decide⟩
          | tail _ hq5 => cases hq5)
    (by decide)
  exact ⟨h.1, h.2.2.2 { id := "a2", username := .pyStr "Ada" }
    (by decide) (by decide) "sa2" rfl⟩

theorem generate_lobby_code_mem_cands (lb : List (PyVal × Lobby))
    (cands : Nat → Int) :
    ∀ (fuel k : Nat) (code : Int),
      generate_lobby_code lb cands k fuel = some code → ∃ j, code = cands j := by
  intro fuel
  induction fuel with
  | zero => intro k code h; cases h
  | succ n ih =>
    intro k code h
    simp only [generate_lobby_code] at h
    by_cases hc : (dictGet (PyVal.pyStr (toString (cands k))) lb).isSome = true
    · rw [if_pos hc] at h
      exact ih (k + 1) code h
    · rw [if_neg hc] at h
      exact ⟨k, (Option.some.inj h).symm⟩

theorem mem_remove_player_of_ne {q : Player} {pid : String} :
    ∀ ps : List Player, q ∈ ps → q.id ≠ pid → q ∈ remove_player pid ps := by
  intro ps
  induction ps with
  | nil => intro h _; cases h
  | cons p rest ih =>
    intro hq hne
    by_cases hp : p.id = pid
    · simp only [remove_player, if_pos hp]
      cases hq with
      | head => exact absurd hp hne
      | tail _ h => exact h
    · simp only [remove_player, if_neg hp]
      cases hq with
      | head => exact List.mem_cons_self _ _
      | tail _ h => exact List.mem_cons_of_mem _ (ih h hne)

/-- Claim C8 (amended; status: corrected).  The weak reverse-index invariant
the code maintains is preserved by every `create_lobby` (with fresh code
samples), `join_lobby` and `disconnect`: registry keys stay coherent with
the stored codes, and every indexed identity keeps pointing to a live lobby
that holds it in its roster or records it as host (the host is indexed from
lobby creation, before joining the roster); being a map, the index relates
each identity to at most one lobby. -/
theorem reverse_index_weak_invariant_preserved
    (s : ServerState) (op : Op) (hco : Coherent s) (hinv : RevIndexOk s)
    (hfresh : FreshOk s op) (r : ServerState) (es : List Emit)
    (hstep : applyOp s op = some (r, es)) :
    Coherent r ∧ RevIndexOk r := by
  have hkeep : ∀ (pt : List (String × PyVal)) (st it : List (String × String)),
      (∀ kv ∈ pt, kv ∈ s.player_to_lobby) →
      Coherent ⟨s.lobbies, pt, st, it⟩ ∧ RevIndexOk ⟨s.lobbies, pt, st, it⟩ := by
    intro pt st it hsub
    exact ⟨fun kv hkv => hco kv hkv, fun kv hkv => hinv kv (hsub kv hkv)⟩
  cases op with
  | createL sid cands fuel =>
    simp only [applyOp] at hstep
    cases hg : generate_lobby_code s.lobbies cands 0 fuel with
    | none =>
      simp only [create_lobby, hg] at hstep
      exact Option.noConfusion hstep
    | some code =>
      simp only [create_lobby, hg] at hstep
      injection hstep with hre
      injection hre with h1 h2
      subst h1
      simp only [FreshOk] at hfresh
      obtain ⟨j, hj⟩ :=
        generate_lobby_code_mem_cands s.lobbies cands fuel 0 code hg
      have hfr : dictGet (PyVal.pyInt code) s.lobbies = none := by
        rw [hj]; exact hfresh j
      constructor
      · intro kv hkv
        rcases mem_dictSet hkv with rfl | hkv'
        · rfl
        · exact hco kv hkv'
      · intro kv hkv
        rcases mem_dictSet hkv with rfl | hkv'
        · exact ⟨_, dictGet_set_self _ _ _, Or.inr rfl⟩
        · obtain ⟨L, hL, hLm⟩ := hinv kv hkv'
          have hne2 : kv.2 ≠ PyVal.pyInt code := by
            intro he
            rw [he, hfr] at hL
            cases hL
          exact ⟨L, by
            rw [dictGet_set_ne (PyVal.pyInt code) kv.2 _ s.lobbies hne2]
            exact hL, hLm⟩
  | joinL sid data =>
    simp only [applyOp] at hstep
    injection hstep with hre
    cases hu : dictGet "username" data with
    | none =>
      simp only [join_lobby, hu] at hre
      injection hre with h1 h2
      subst h1
      exact ⟨hco, hinv⟩
    | some uname =>
      cases hc : dictGet "lobby_code" data with
      | none =>
        simp only [join_lobby, hu, hc] at hre
        injection hre with h1 h2
        subst h1
        exact ⟨hco, hinv⟩
      | some codeV =>
        simp only [join_lobby, hu, hc] at hre
        by_cases htr : (!pyTruthy uname || !pyTruthy codeV) = true
        · rw [if_pos htr] at hre
          injection hre with h1 h2
          subst h1
          exact ⟨hco, hinv⟩
        · rw [if_neg htr] at hre
          cases hl : dictGet codeV s.lobbies with
          | none =>
            simp only [hl] at hre
            injection hre with h1 h2
            subst h1
            exact ⟨hco, hinv⟩
          | some lobby =>
            simp only [hl] at hre
            by_cases hst : lobby.current_state ≠ GameState.WAITING
            · rw [if_pos hst] at hre
              injection hre with h1 h2
              subst h1
              exact ⟨hco, hinv⟩
            · rw [if_neg hst] at hre
              by_cases hcap : 12 ≤ lobby.players.length
              · rw [if_pos hcap] at hre
                injection hre with h1 h2
                subst h1
                exact ⟨hco, hinv⟩
              · rw [if_neg hcap] at hre
                injection hre with h1 h2
                subst h1
                have hcv : codeV = PyVal.pyInt lobby.lobby_code :=
                  hco _ (dictGet_mem hl)
                constructor
                · intro kv hkv
                  rcases mem_dictSet hkv with rfl | hkv'
                  · exact hcv
                  · exact hco kv hkv'
                · intro kv hkv
                  rcases mem_dictSet hkv with rfl | hkv'
                  · refine ⟨_, by rw [← hcv]; exact dictGet_set_self _ _ _, ?_⟩
                    exact Or.inl ⟨_, List.mem_append_right _
                      (List.mem_singleton_self _), rfl⟩
                  · obtain ⟨L, hL, hLm⟩ := hinv kv hkv'
                    by_cases he : kv.2 = codeV
                    · have hLlobby : L = lobby := by
                        rw [he, hl] at hL
                        exact (Option.some.inj hL).symm
                      rw [hLlobby] at hLm
                      refine ⟨_, by rw [he]; exact dictGet_set_self _ _ _, ?_⟩
                      rcases hLm with ⟨q, hq, hqid⟩ | hhid
                      · exact Or.inl ⟨q, List.mem_append_left _ hq, hqid⟩
                      · exact Or.inr hhid
                    · exact ⟨L, by
                        rw [dictGet_set_ne codeV kv.2 _ s.lobbies he]
                        exact hL, hLm⟩
  | disc sid =>
    simp only [applyOp] at hstep
    injection hstep with hre
    cases hsid : dictGet sid s.sid_to_id with
    | none =>
      simp only [disconnect, hsid] at hre
      injection hre with h1 h2
      subst h1
      exact ⟨hco, hinv⟩
    | some pid =>
      by_cases hpe : pid = ""
      · simp only [disconnect, hsid] at hre
        rw [if_pos hpe] at hre
        injection hre with h1 h2
        subst h1
        exact hkeep _ _ _ (fun kv hkv => hkv)
      · cases hpl : dictGet pid s.player_to_lobby with
        | none =>
          have hglp : get_lobby_and_player
              { s with sid_to_id := dictPop sid s.sid_to_id } pid =
              (none, none) := by
            simp only [get_lobby_and_player, hpl]
          simp only [disconnect, hsid] at hre
          rw [if_neg hpe] at hre
          simp only [hglp] at hre
          injection hre with h1 h2
          subst h1
          exact hkeep _ _ _ (fun kv hkv => (mem_dictPop hkv).1)
        | some code =>
          by_cases hct : pyTruthy code = true
          · cases hlb : dictGet code s.lobbies with
            | none =>
              have hglp : get_lobby_and_player
                  { s with sid_to_id := dictPop sid s.sid_to_id } pid =
                  (none, some code) := by
                simp only [get_lobby_and_player, hpl, hct, if_true, hlb]
              simp only [disconnect, hsid] at hre
              rw [if_neg hpe] at hre
              simp only [hglp] at hre
              injection hre with h1 h2
              subst h1
              exact hkeep _ _ _ (fun kv hkv => (mem_dictPop hkv).1)
            | some lobby =>
              have hglp : get_lobby_and_player
                  { s with sid_to_id := dictPop sid s.sid_to_id } pid =
                  (some lobby, some code) := by
                simp only [get_lobby_and_player, hpl, hct, if_true, hlb]
              by_cases hhost : lobby.host_id = pid
              · simp only [disconnect, hsid] at hre
                rw [if_neg hpe] at hre
                simp only [hglp, if_pos hhost] at hre
                injection hre with h1 h2
                subst h1
                constructor
                · intro kv hkv
                  have hkv2 : kv ∈ dictPop code
                      (host_teardown pid lobby.players
                        { s with sid_to_id := dictPop sid s.sid_to_id,
                                 id_to_sid := dictPop pid s.id_to_sid,
                                 player_to_lobby :=
                                   dictPop pid s.player_to_lobby }).1.lobbies :=
                    hkv
                  rw [host_teardown_lobbies] at hkv2
                  exact hco kv (mem_dictPop hkv2).1
                · intro kv hkv
                  have hkv2 : kv ∈ (host_teardown pid lobby.players
                      { s with sid_to_id := dictPop sid s.sid_to_id,
                               id_to_sid := dictPop pid s.id_to_sid,
                               player_to_lobby :=
                                 dictPop pid s.player_to_lobby }).1.player_to_lobby :=
                    hkv
                  rw [host_teardown_ptl] at hkv2
                  obtain ⟨hmemPop, hpred⟩ := List.mem_filter.mp hkv2
                  obtain ⟨hmemS, hne⟩ := mem_dictPop hmemPop
                  obtain ⟨L, hL, hLm⟩ := hinv kv hmemS
                  have hkvne : kv.2 ≠ code := by
                    intro he
                    have hLe : L = lobby := by
                      rw [he, hlb] at hL
                      exact (Option.some.inj hL).symm
                    rw [hLe] at hLm
                    rcases hLm with ⟨q, hq, hqid⟩ | hhid
                    · have hany : lobby.players.any
                          (fun rr => rr.id == kv.1 && rr.id != pid) = true :=
                        List.any_eq_true.mpr ⟨q, hq, by simp [hqid, hne]⟩
                      simp [hany] at hpred
                    · exact hne (hhid ▸ hhost)
                  refine ⟨L, ?_, hLm⟩
                  show dictGet kv.2 (dictPop code
                    (host_teardown pid lobby.players
                      { s with sid_to_id := dictPop sid s.sid_to_id,
                               id_to_sid := dictPop pid s.id_to_sid,
                               player_to_lobby :=
                                 dictPop pid s.player_to_lobby }).1.lobbies) =
                    some L
                  rw [host_teardown_lobbies,
                    dictGet_pop_ne code kv.2 _ hkvne]
                  exact hL
              · simp only [disconnect, hsid] at hre
                rw [if_neg hpe] at hre
                simp only [hglp, if_neg hhost] at hre
                injection hre with h1 h2
                subst h1
                have hcv : code = PyVal.pyInt lobby.lobby_code :=
                  hco _ (dictGet_mem hlb)
                constructor
                · intro kv hkv
                  rcases mem_dictSet hkv with rfl | hkv'
                  · exact hcv
                  · exact hco kv hkv'
                · intro kv hkv
                  obtain ⟨hkvS, hkvne⟩ := mem_dictPop hkv
                  obtain ⟨L, hL, hLm⟩ := hinv kv hkvS
                  by_cases he : kv.2 = code
                  · have hLe : L = lobby := by
                      rw [he, hlb] at hL
                      exact (Option.some.inj hL).symm
                    rw [hLe] at hLm
                    refine ⟨_, by rw [he]; exact dictGet_set_self _ _ _, ?_⟩
                    rcases hLm with ⟨q, hq, hqid⟩ | hhid
                    · exact Or.inl ⟨q, mem_remove_player_of_ne _ hq
                        (by rw [hqid]; exact hkvne), hqid⟩
                    · exact Or.inr hhid
                  · exact ⟨L, by
                      rw [dictGet_set_ne code kv.2 _ _ he]
                      exact hL, hLm⟩
          · have hct' : pyTruthy code = false := by simpa using hct
            have hglp : get_lobby_and_player
                { s with sid_to_id := dictPop sid s.sid_to_id } pid =
                (none, none) := by
              simp only [get_lobby_and_player, hpl, hct', Bool.false_eq_true,
                if_false]
            simp only [disconnect, hsid] at hre
            rw [if_neg hpe] at hre
            simp only [hglp] at hre
            injection hre with h1 h2
            subst h1
            exact hkeep _ _ _ (fun kv hkv => (mem_dictPop hkv).1)

/-- Witness for C8: the weak invariant holds after creating a lobby on the
empty registry with the fresh code 4321. -/
theorem reverse_index_weak_invariant_preserved_witness :
    Coherent R8.1 ∧ RevIndexOk R8.1 :=
  reverse_index_weak_invariant_preserved S8
    (.createL "sh8" (fun _ => 4321) 1)
    (by intro kv hkv; cases hkv) (by intro kv hkv; cases hkv)
    (by intro j; rfl) R8.1 R8.2 rfl

end App
